import Mathlib

/-!
Verification of the command decoration and dispatch layer
(`src/operations/command.ts` of the driver): the `CommandOperation`
constructor, the `canRetryWrite` derived property and the
`executeCommand` capability-gated decoration pipeline.

The embedding is a shallow one: the mutable caller-owned command
document becomes an explicit `Cmd` value threaded through the pipeline,
and `executeCommand` returns the final state of that document together
with the outcome (an error delivered through the callback, or a
dispatch to the transport with the dispatched document and the
execution options bag).  Collaborators that live outside the given
sources (`maxWireVersion`, `decorateWithExplain`, the concern
constructors, `commandSupportsReadConcern`, the `Aspect` tag set) are
modelled from the spec, as marked on each definition.
-/

/-- A read concern value object.  Its internal validation is out of
scope; only presence/absence and identity matter here. -/
structure ReadConcern where
  level : String
deriving DecidableEq, Repr

/-- A write concern value object; only presence/absence and identity
matter here. -/
structure WriteConcern where
  w : String
deriving DecidableEq, Repr

/-- A collation options object (`CollationOptions`).  A supplied
collation is a JavaScript object, hence always truthy and always of
`typeof === 'object'`. -/
structure CollationOptions where
  locale : String
deriving DecidableEq, Repr

/-- The value of the `explain` option in the options bag: the driver
accepts a boolean or a verbosity string. -/
inductive ExplainOptionValue where
  | boolean (b : Bool)
  | verbosity (v : String)
deriving DecidableEq, Repr

/-- Modelled from the spec: the explain directive (`Explain`, from
`src/explain.ts`, not under the given sources).  "Carries a verbosity
level." -/
structure Explain where
  verbosity : String
deriving DecidableEq, Repr

/-- The value of the `comment` option: `string | Document`.  Only plain
strings are attached by the pipeline; a document comment takes a
different encoding path. -/
inductive CommentValue where
  | str (s : String)
  | doc (d : String)
deriving DecidableEq, Repr

/-- Modelled from the spec: the capability aspect tag set declared per
operation kind (`Aspect`, from `src/operations/operation.ts`, not under
the given sources).  Only `EXPLAINABLE` and `WRITE_OPERATION` are
consulted by this core; the other members are carried for completeness. -/
inductive Aspect where
  | READ_OPERATION
  | WRITE_OPERATION
  | RETRYABLE
  | EXPLAINABLE
deriving DecidableEq, Repr

/-- The options bag (`CommandOperationOptions`).  Every key the command
layer consults is present as an optional field.  `fullResult` is not a
declared key of the interface, but a caller-supplied value for it is
still carried by the object spread into the execution options
(`{ fullResult: ..., ...this.options }`), so it is modelled. -/
structure CommandOperationOptions where
  fullResponse : Option Bool := none
  readConcern : Option ReadConcern := none
  writeConcern : Option WriteConcern := none
  collation : Option CollationOptions := none
  maxTimeMS : Option Int := none
  comment : Option CommentValue := none
  explain : Option ExplainOptionValue := none
  dbName : Option String := none
  authdb : Option String := none
  fullResult : Option Bool := none
deriving DecidableEq, Repr

/-- Modelled from the spec: a namespace is a (database, collection)
pair (`MongoDBNamespace`, from `src/utils.ts`, not under the given
sources). -/
structure MongoDBNamespace where
  db : String
  collection : String
deriving DecidableEq, Repr

/-- `MongoDBNamespace.prototype.withCollection`: same database, new
collection. -/
def MongoDBNamespace.withCollection (ns : MongoDBNamespace) (c : String) : MongoDBNamespace :=
  { db := ns.db, collection := c }

/-- `MongoDBNamespace.prototype.toString`: `db.collection`. -/
def MongoDBNamespace.toStr (ns : MongoDBNamespace) : String :=
  ns.db ++ "." ++ ns.collection

/-- A logger; only the debug-enabled predicate is consulted, and the
debug emission has no effect on the command. -/
structure Logger where
  debugEnabled : Bool
deriving DecidableEq, Repr

/-- A session; the command layer consults only the transaction-active
predicate `inTransaction()`. -/
structure Session where
  inTransaction : Bool
deriving DecidableEq, Repr

/-- A server handle.  `maxWireVersion(server)` reports `wireVersion`. -/
structure Server where
  name : String
  wireVersion : Nat
deriving DecidableEq, Repr

/-- Modelled from the spec: `maxWireVersion` (from `src/utils.ts`, not
under the given sources) returns the server's reported wire-protocol
version integer. -/
def maxWireVersion (server : Server) : Nat :=
  server.wireVersion

/-- `OperationParent`: exposes its namespace (`parent.s.namespace`) and
an optional logger.  Its concern fields are not consulted by this
constructor. -/
structure OperationParent where
  ns : MongoDBNamespace
  logger : Option Logger := none
deriving DecidableEq, Repr

/-- `MongoError`; only the message matters here. -/
structure MongoError where
  message : String
deriving DecidableEq, Repr

/-- The caller-owned command document, restricted to the fields this
layer reads or writes.  `supportsReadConcern` records the judgment of
`commandSupportsReadConcern(cmd)` (from `src/sessions.ts`, not under
the given sources), modelled from the spec as "the command's verb
supports read concern". -/
structure Cmd where
  supportsReadConcern : Bool := false
  aggregate : Option String := none
  readConcern : Option ReadConcern := none
  writeConcern : Option WriteConcern := none
  collation : Option CollationOptions := none
  maxTimeMS : Option Int := none
  comment : Option String := none
  explain : Option Bool := none
deriving DecidableEq, Repr

/-- The document handed to the transport: either the (decorated)
caller document itself, or its explain wrapping. -/
inductive DispatchCmd where
  | plain (c : Cmd)
  | wrapped (inner : Cmd) (verbosity : String)
deriving DecidableEq, Repr

/-- Modelled from the spec: `decorateWithExplain` (from `src/utils.ts`,
not under the given sources) wraps/transforms the command into its
explain form carrying the resolved verbosity. -/
def decorateWithExplain (cmd : Cmd) (ex : Explain) : DispatchCmd :=
  .wrapped cmd ex.verbosity

/-- The execution-options bag forwarded to the transport:
`{ fullResult: !!this.fullResponse, ...this.options }`.  The spread
copies every key of `this.options` after the derived flag, so a
caller-supplied `fullResult` overrides it. -/
structure ExecOptions where
  fullResult : Bool
  options : CommandOperationOptions
deriving DecidableEq, Repr

/-- The observable outcome of `executeCommand`: the callback receives a
`MongoError` before any dispatch, or `server.command` is invoked with
the namespace string, the dispatched document and the execution
options. -/
inductive ExecResult where
  | errored (message : String)
  | sent (ns : String) (cmd : DispatchCmd) (opts : ExecOptions)
deriving DecidableEq, Repr

/-- Whether the transport's command-send operation was invoked. -/
def ExecResult.isSent : ExecResult → Bool
  | .errored _ => false
  | .sent _ _ _ => true

/-- The dispatched document, when a dispatch happened. -/
def ExecResult.sentCmd : ExecResult → Option DispatchCmd
  | .errored _ => none
  | .sent _ c _ => some c

/-- The forwarded execution options, when a dispatch happened. -/
def ExecResult.sentOpts : ExecResult → Option ExecOptions
  | .errored _ => none
  | .sent _ _ o => some o

/-- The namespace string of the dispatch, when a dispatch happened. -/
def ExecResult.sentNs : ExecResult → Option String
  | .errored _ => none
  | .sent n _ _ => some n

/-- JavaScript truthiness of an optional string (`undefined` and the
empty string are falsy). -/
def jsTruthyStr : Option String → Option String
  | none => none
  | some s => if s = "" then none else some s

/-- Modelled from the spec: `ReadConcern.fromOptions` (from
`src/read_concern.ts`, not under the given sources) "returns none if no
relevant keys are present — concerns are never invented". -/
def ReadConcern.fromOptions (options : Option CommandOperationOptions) : Option ReadConcern :=
  options.bind (·.readConcern)

/-- Modelled from the spec: `WriteConcern.fromOptions` (from
`src/write_concern.ts`, not under the given sources), same contract as
the read-concern resolver. -/
def WriteConcern.fromOptions (options : Option CommandOperationOptions) : Option WriteConcern :=
  options.bind (·.writeConcern)

/-- Modelled from the spec: `Explain.fromOptions` (from
`src/explain.ts`, not under the given sources): none when no explain
option was supplied, otherwise a directive carrying the resolved
verbosity (a boolean resolves to the two canonical verbosities). -/
def Explain.fromOptions (options : Option CommandOperationOptions) : Option Explain :=
  match options.bind (·.explain) with
  | none => none
  | some (.boolean b) => some ⟨if b then "allPlansExecution" else "queryPlanner"⟩
  | some (.verbosity v) => some ⟨v⟩

/-- The state of a `CommandOperation` after construction.  `session` is
attached by the external execution layer before `executeCommand` runs;
the constructor leaves it absent. -/
structure CommandOperation where
  aspects : List Aspect
  options : CommandOperationOptions
  session : Option Session := none
  ns : MongoDBNamespace
  readConcern : Option ReadConcern := none
  writeConcern : Option WriteConcern := none
  explain : Option Explain := none
  fullResponse : Bool := false
  logger : Option Logger := none
deriving DecidableEq, Repr

/-- `OperationBase.hasAspect`, modelled from the spec: membership in
the operation kind's static aspect set. -/
def CommandOperation.hasAspect (op : CommandOperation) (a : Aspect) : Bool :=
  op.aspects.contains a

/-- `this.session && this.session.inTransaction()`. -/
def CommandOperation.inTransactionFlag (op : CommandOperation) : Bool :=
  match op.session with
  | some s => s.inTransaction
  | none => false

/-- The `CommandOperation` constructor.  Throwing (`explain is not
supported on this command`) is modelled as `Except.error`. -/
def CommandOperation.construct (aspects : List Aspect) (parent : Option OperationParent)
    (options : Option CommandOperationOptions) : Except MongoError CommandOperation :=
  let dbNameOverride :=
    (jsTruthyStr (options.bind (·.dbName))).orElse fun _ => jsTruthyStr (options.bind (·.authdb))
  let ns :=
    match dbNameOverride with
    | some dbn => MongoDBNamespace.mk dbn "$cmd"
    | none =>
      match parent with
      | some p => p.ns.withCollection "$cmd"
      | none => MongoDBNamespace.mk "admin" "$cmd"
  let readConcern := ReadConcern.fromOptions options
  let writeConcern := WriteConcern.fromOptions options
  let fullResponse :=
    match options with
    | some o => (o.fullResponse).getD false
    | none => false
  let logger := parent.bind (·.logger)
  if aspects.contains Aspect.EXPLAINABLE then
    .ok { aspects := aspects, options := options.getD {}, ns := ns,
          readConcern := readConcern, writeConcern := writeConcern,
          explain := Explain.fromOptions options, fullResponse := fullResponse,
          logger := logger }
  else if (options.bind (·.explain)).isSome then
    .error ⟨"explain is not supported on this command"⟩
  else
    .ok { aspects := aspects, options := options.getD {}, ns := ns,
          readConcern := readConcern, writeConcern := writeConcern,
          explain := none, fullResponse := fullResponse, logger := logger }

/-- The `canRetryWrite` derived property. -/
def CommandOperation.canRetryWrite (op : CommandOperation) : Bool :=
  if op.hasAspect Aspect.EXPLAINABLE then op.explain.isNone
  else true

/-- JavaScript truthiness of the `aggregate` field value (a collection
name; `undefined` and the empty string are falsy). -/
def aggregateTruthy (a : Option String) : Bool :=
  match a with
  | none => false
  | some s => !(s = "")

/-- The message of the collation capability-mismatch error. -/
def collationErrorMessage (server : Server) (serverWireVersion : Nat) : String :=
  "Server " ++ server.name ++ ", which reports wire version " ++
    toString serverWireVersion ++ ", does not support collation"

/-- The execution-options bag built at the dispatch site:
`{ fullResult: !!this.fullResponse, ...this.options }`. -/
def CommandOperation.buildExecOptions (op : CommandOperation) : ExecOptions :=
  { fullResult :=
      match op.options.fullResult with
      | some v => v
      | none => op.fullResponse
    options := op.options }


/-- The read-concern block of `executeCommand`:
`if (this.readConcern && commandSupportsReadConcern(cmd) && !inTransaction)
   Object.assign(cmd, { readConcern: this.readConcern })`. -/
def applyReadConcernStep (op : CommandOperation) (inTransaction : Bool) (cmd : Cmd) : Cmd :=
  if op.readConcern.isSome && cmd.supportsReadConcern && !inTransaction then
    { cmd with readConcern := op.readConcern }
  else cmd

/-- The block of `executeCommand` guarded by
`serverWireVersion >= SUPPORTS_WRITE_CONCERN_AND_COLLATION`: the
write-concern attach and the collation attach. -/
def applyWriteConcernAndCollationStep (op : CommandOperation) (serverWireVersion : Nat)
    (inTransaction : Bool) (cmd : Cmd) : Cmd :=
  if decide (serverWireVersion ≥ 5) then
    let cmd :=
      if op.writeConcern.isSome && op.hasAspect Aspect.WRITE_OPERATION && !inTransaction then
        { cmd with writeConcern := op.writeConcern }
      else cmd
    if op.options.collation.isSome then { cmd with collation := op.options.collation }
    else cmd
  else cmd

/-- `if (typeof options.maxTimeMS === 'number') cmd.maxTimeMS = options.maxTimeMS`. -/
def applyMaxTimeMSStep (options : CommandOperationOptions) (cmd : Cmd) : Cmd :=
  match options.maxTimeMS with
  | some t => { cmd with maxTimeMS := some t }
  | none => cmd

/-- `if (typeof options.comment === 'string') cmd.comment = options.comment`. -/
def applyCommentStep (options : CommandOperationOptions) (cmd : Cmd) : Cmd :=
  match options.comment with
  | some (.str s) => { cmd with comment := some s }
  | _ => cmd

/-- The explain block of `executeCommand`: when the operation is
explainable and a directive is active, either set the legacy boolean
flag (wire version < 6 and an aggregate command) or rebind `cmd` to its
explain wrapping.  Returns the final caller-owned document together
with the document that will be dispatched. -/
def applyExplainStage (op : CommandOperation) (serverWireVersion : Nat)
    (cmd : Cmd) : Cmd × DispatchCmd :=
  match (if op.hasAspect Aspect.EXPLAINABLE then op.explain else none) with
  | some ex =>
    if decide (serverWireVersion < 6) && aggregateTruthy cmd.aggregate then
      let cmd := { cmd with explain := some true }
      (cmd, .plain cmd)
    else
      (cmd, decorateWithExplain cmd ex)
  | none => (cmd, .plain cmd)

/-- `executeCommand(server, cmd, callback)`.  Returns the final state
of the caller-owned command document (which the source mutates in
place) together with the outcome.  `const options = { ...this.options,
...this.bsonOptions }` is modelled as `this.options` alone:
`BSONSerializeOptions` declares none of the keys consulted below
(`collation`, `maxTimeMS`, `comment`), so the merge cannot change them. -/
def CommandOperation.executeCommand (op : CommandOperation) (server : Server)
    (cmd : Cmd) : Cmd × ExecResult :=
  let options := op.options
  let serverWireVersion := maxWireVersion server
  let inTransaction := op.inTransactionFlag
  let cmd := applyReadConcernStep op inTransaction cmd
  if options.collation.isSome && decide (serverWireVersion < 5) then
    (cmd, .errored (collationErrorMessage server serverWireVersion))
  else
    let cmd := applyWriteConcernAndCollationStep op serverWireVersion inTransaction cmd
    let cmd := applyMaxTimeMSStep options cmd
    let cmd := applyCommentStep options cmd
    let dispatched := applyExplainStage op serverWireVersion cmd
    (dispatched.fst, .sent op.ns.toStr dispatched.snd op.buildExecOptions)

/-!
Rewriting lemmas: each stage as a single record update.
-/

lemma applyReadConcernStep_eq (op : CommandOperation) (inTransaction : Bool) (cmd : Cmd) :
    applyReadConcernStep op inTransaction cmd =
      { cmd with
        readConcern :=
          if op.readConcern.isSome && cmd.supportsReadConcern && !inTransaction then
            op.readConcern
          else cmd.readConcern } := by
  unfold applyReadConcernStep
  split <;> simp_all

lemma applyWriteConcernAndCollationStep_eq (op : CommandOperation) (serverWireVersion : Nat)
    (inTransaction : Bool) (cmd : Cmd) :
    applyWriteConcernAndCollationStep op serverWireVersion inTransaction cmd =
      { cmd with
        writeConcern :=
          if decide (serverWireVersion ≥ 5) && op.writeConcern.isSome &&
              op.hasAspect Aspect.WRITE_OPERATION && !inTransaction then
            op.writeConcern
          else cmd.writeConcern
        collation :=
          if decide (serverWireVersion ≥ 5) && op.options.collation.isSome then
            op.options.collation
          else cmd.collation } := by
  unfold applyWriteConcernAndCollationStep
  by_cases h5 : 5 ≤ serverWireVersion
  · have h5d : decide (serverWireVersion ≥ 5) = true := by
      simp [ge_iff_le, h5]
    simp only [h5d, Bool.true_and]
    split_ifs <;> simp_all
  · have h5d : decide (serverWireVersion ≥ 5) = false := by
      simp [ge_iff_le, h5]
    simp [h5d]

lemma applyMaxTimeMSStep_eq (options : CommandOperationOptions) (cmd : Cmd) :
    applyMaxTimeMSStep options cmd =
      { cmd with
        maxTimeMS := if options.maxTimeMS.isSome then options.maxTimeMS else cmd.maxTimeMS } := by
  unfold applyMaxTimeMSStep
  cases h : options.maxTimeMS <;> simp_all

lemma applyCommentStep_eq (options : CommandOperationOptions) (cmd : Cmd) :
    applyCommentStep options cmd =
      { cmd with
        comment :=
          match options.comment with
          | some (.str s) => some s
          | _ => cmd.comment } := by
  unfold applyCommentStep
  rcases h : options.comment with _ | v
  · simp_all
  · cases v <;> simp_all

lemma applyExplainStage_eq (op : CommandOperation) (serverWireVersion : Nat) (cmd : Cmd) :
    applyExplainStage op serverWireVersion cmd =
      (let c :=
        { cmd with
          explain :=
            if op.hasAspect Aspect.EXPLAINABLE && op.explain.isSome &&
                decide (serverWireVersion < 6) && aggregateTruthy cmd.aggregate then
              some true
            else cmd.explain }
       (c,
        match (if op.hasAspect Aspect.EXPLAINABLE then op.explain else none) with
        | some ex =>
          if decide (serverWireVersion < 6) && aggregateTruthy cmd.aggregate then
            DispatchCmd.plain c
          else decorateWithExplain c ex
        | none => DispatchCmd.plain c)) := by
  unfold applyExplainStage
  cases hA : op.hasAspect Aspect.EXPLAINABLE <;> cases hE : op.explain
  all_goals simp_all
  all_goals split <;> simp_all

/-!
Characterization lemmas for `executeCommand`: the final state of each
field of the caller-owned document, and the shape of the outcome.
-/

lemma executeCommand_fst_supports (op : CommandOperation) (server : Server) (cmd : Cmd) :
    (op.executeCommand server cmd).fst.supportsReadConcern = cmd.supportsReadConcern := by
  unfold CommandOperation.executeCommand
  simp only [applyReadConcernStep_eq, applyWriteConcernAndCollationStep_eq,
    applyMaxTimeMSStep_eq, applyCommentStep_eq, applyExplainStage_eq, maxWireVersion]
  split <;> rfl

lemma executeCommand_fst_aggregate (op : CommandOperation) (server : Server) (cmd : Cmd) :
    (op.executeCommand server cmd).fst.aggregate = cmd.aggregate := by
  unfold CommandOperation.executeCommand
  simp only [applyReadConcernStep_eq, applyWriteConcernAndCollationStep_eq,
    applyMaxTimeMSStep_eq, applyCommentStep_eq, applyExplainStage_eq, maxWireVersion]
  split <;> rfl

lemma executeCommand_fst_readConcern (op : CommandOperation) (server : Server) (cmd : Cmd) :
    (op.executeCommand server cmd).fst.readConcern =
      if op.readConcern.isSome && cmd.supportsReadConcern && !op.inTransactionFlag then
        op.readConcern
      else cmd.readConcern := by
  unfold CommandOperation.executeCommand
  simp only [applyReadConcernStep_eq, applyWriteConcernAndCollationStep_eq,
    applyMaxTimeMSStep_eq, applyCommentStep_eq, applyExplainStage_eq, maxWireVersion]
  split <;> rfl

lemma executeCommand_fst_writeConcern (op : CommandOperation) (server : Server) (cmd : Cmd) :
    (op.executeCommand server cmd).fst.writeConcern =
      if decide (server.wireVersion ≥ 5) && op.writeConcern.isSome &&
          op.hasAspect Aspect.WRITE_OPERATION && !op.inTransactionFlag then
        op.writeConcern
      else cmd.writeConcern := by
  unfold CommandOperation.executeCommand
  simp only [applyReadConcernStep_eq, applyWriteConcernAndCollationStep_eq,
    applyMaxTimeMSStep_eq, applyCommentStep_eq, applyExplainStage_eq, maxWireVersion]
  split
  · rename_i h
    have h5 : decide (server.wireVersion ≥ 5) = false := by
      simp only [Bool.and_eq_true, decide_eq_true_eq] at h
      simp only [ge_iff_le, decide_eq_false_iff_not]
      omega
    simp [h5]
  · rfl

lemma executeCommand_fst_collation (op : CommandOperation) (server : Server) (cmd : Cmd) :
    (op.executeCommand server cmd).fst.collation =
      if decide (server.wireVersion ≥ 5) && op.options.collation.isSome then
        op.options.collation
      else cmd.collation := by
  unfold CommandOperation.executeCommand
  simp only [applyReadConcernStep_eq, applyWriteConcernAndCollationStep_eq,
    applyMaxTimeMSStep_eq, applyCommentStep_eq, applyExplainStage_eq, maxWireVersion]
  split
  · rename_i h
    have h5 : decide (server.wireVersion ≥ 5) = false := by
      simp only [Bool.and_eq_true, decide_eq_true_eq] at h
      simp only [ge_iff_le, decide_eq_false_iff_not]
      omega
    simp [h5]
  · rfl

lemma executeCommand_fst_maxTimeMS (op : CommandOperation) (server : Server) (cmd : Cmd) :
    (op.executeCommand server cmd).fst.maxTimeMS =
      if op.options.collation.isSome && decide (server.wireVersion < 5) then cmd.maxTimeMS
      else if op.options.maxTimeMS.isSome then op.options.maxTimeMS
      else cmd.maxTimeMS := by
  unfold CommandOperation.executeCommand
  simp only [applyReadConcernStep_eq, applyWriteConcernAndCollationStep_eq,
    applyMaxTimeMSStep_eq, applyCommentStep_eq, applyExplainStage_eq, maxWireVersion]
  split <;> simp_all

lemma executeCommand_fst_comment (op : CommandOperation) (server : Server) (cmd : Cmd) :
    (op.executeCommand server cmd).fst.comment =
      if op.options.collation.isSome && decide (server.wireVersion < 5) then cmd.comment
      else
        match op.options.comment with
        | some (.str s) => some s
        | _ => cmd.comment := by
  unfold CommandOperation.executeCommand
  simp only [applyReadConcernStep_eq, applyWriteConcernAndCollationStep_eq,
    applyMaxTimeMSStep_eq, applyCommentStep_eq, applyExplainStage_eq, maxWireVersion]
  split <;> simp_all

lemma executeCommand_fst_explain (op : CommandOperation) (server : Server) (cmd : Cmd) :
    (op.executeCommand server cmd).fst.explain =
      if !(op.options.collation.isSome && decide (server.wireVersion < 5)) &&
          op.hasAspect Aspect.EXPLAINABLE && op.explain.isSome &&
          decide (server.wireVersion < 6) && aggregateTruthy cmd.aggregate then
        some true
      else cmd.explain := by
  by_cases hc : (op.options.collation.isSome && decide (server.wireVersion < 5)) = true
  · unfold CommandOperation.executeCommand
    simp [applyReadConcernStep_eq, maxWireVersion, hc]
  · rw [Bool.not_eq_true] at hc
    unfold CommandOperation.executeCommand
    simp only [applyReadConcernStep_eq, applyWriteConcernAndCollationStep_eq,
      applyMaxTimeMSStep_eq, applyCommentStep_eq, applyExplainStage_eq, maxWireVersion, hc,
      Bool.false_eq_true, if_false, Bool.not_false, Bool.true_and]

lemma executeCommand_snd_error (op : CommandOperation) (server : Server) (cmd : Cmd)
    (h : (op.options.collation.isSome && decide (server.wireVersion < 5)) = true) :
    (op.executeCommand server cmd).snd =
      .errored (collationErrorMessage server server.wireVersion) := by
  unfold CommandOperation.executeCommand
  simp [h, maxWireVersion]

lemma executeCommand_snd_isSent (op : CommandOperation) (server : Server) (cmd : Cmd) :
    (op.executeCommand server cmd).snd.isSent =
      !(op.options.collation.isSome && decide (server.wireVersion < 5)) := by
  by_cases hc : (op.options.collation.isSome && decide (server.wireVersion < 5)) = true
  · unfold CommandOperation.executeCommand
    simp [hc, maxWireVersion, ExecResult.isSent]
  · rw [Bool.not_eq_true] at hc
    unfold CommandOperation.executeCommand
    simp [hc, maxWireVersion, ExecResult.isSent]

lemma executeCommand_sentNs (op : CommandOperation) (server : Server) (cmd : Cmd) :
    (op.executeCommand server cmd).snd.sentNs =
      if op.options.collation.isSome && decide (server.wireVersion < 5) then none
      else some op.ns.toStr := by
  by_cases hc : (op.options.collation.isSome && decide (server.wireVersion < 5)) = true
  · unfold CommandOperation.executeCommand
    simp [hc, maxWireVersion, ExecResult.sentNs]
  · rw [Bool.not_eq_true] at hc
    unfold CommandOperation.executeCommand
    simp [hc, maxWireVersion, ExecResult.sentNs]

lemma executeCommand_sentOpts (op : CommandOperation) (server : Server) (cmd : Cmd) :
    (op.executeCommand server cmd).snd.sentOpts =
      if op.options.collation.isSome && decide (server.wireVersion < 5) then none
      else some op.buildExecOptions := by
  by_cases hc : (op.options.collation.isSome && decide (server.wireVersion < 5)) = true
  · unfold CommandOperation.executeCommand
    simp [hc, maxWireVersion, ExecResult.sentOpts]
  · rw [Bool.not_eq_true] at hc
    unfold CommandOperation.executeCommand
    simp [hc, maxWireVersion, ExecResult.sentOpts]

lemma executeCommand_sentCmd (op : CommandOperation) (server : Server) (cmd : Cmd)
    (h : (op.options.collation.isSome && decide (server.wireVersion < 5)) = false) :
    (op.executeCommand server cmd).snd.sentCmd =
      some
        (match (if op.hasAspect Aspect.EXPLAINABLE then op.explain else none) with
         | some ex =>
           if decide (server.wireVersion < 6) && aggregateTruthy cmd.aggregate then
             DispatchCmd.plain (op.executeCommand server cmd).fst
           else decorateWithExplain (op.executeCommand server cmd).fst ex
         | none => DispatchCmd.plain (op.executeCommand server cmd).fst) := by
  unfold CommandOperation.executeCommand
  simp only [applyReadConcernStep_eq, applyWriteConcernAndCollationStep_eq,
    applyMaxTimeMSStep_eq, applyCommentStep_eq, applyExplainStage_eq, maxWireVersion, h,
    Bool.false_eq_true, if_false, ExecResult.sentCmd]

/-!
Claim theorems.
-/

/-- C1: for every call to `executeCommand` where the options bag
contains a truthy collation value and the server's reported wire
version is strictly less than 5, execution fails with a
capability-mismatch error delivered through the callback, naming the
server and its reported wire version, and the transport's command-send
operation is never invoked for that call. -/
theorem executeCommand_collation_capability_gate (op : CommandOperation) (server : Server)
    (cmd : Cmd) (hcol : op.options.collation.isSome = true)
    (hwv : server.wireVersion < 5) :
    (op.executeCommand server cmd).snd =
      .errored ("Server " ++ server.name ++ ", which reports wire version " ++
        toString server.wireVersion ++ ", does not support collation") ∧
    (op.executeCommand server cmd).snd.isSent = false := by
  have hb : (op.options.collation.isSome && decide (server.wireVersion < 5)) = true := by
    simp [hcol, hwv]
  refine ⟨?_, ?_⟩
  · rw [executeCommand_snd_error op server cmd hb]
    rfl
  · rw [executeCommand_snd_isSent, hb]
    rfl

/-- Witness for C1 at a concrete input: collation supplied, wire
version 4. -/
theorem executeCommand_collation_capability_gate_witness :
    (({ aspects := [], options := { collation := some ⟨"en_US"⟩ }, ns := ⟨"admin", "$cmd"⟩ } :
        CommandOperation).executeCommand ⟨"localhost:27017", 4⟩ {}).snd =
      .errored ("Server " ++ "localhost:27017" ++ ", which reports wire version " ++
        toString (4 : Nat) ++ ", does not support collation") ∧
    (({ aspects := [], options := { collation := some ⟨"en_US"⟩ }, ns := ⟨"admin", "$cmd"⟩ } :
        CommandOperation).executeCommand ⟨"localhost:27017", 4⟩ {}).snd.isSent = false :=
  executeCommand_collation_capability_gate _ _ _ (by decide) (by decide)

/-- C10: when a read concern is set, the command's verb supports read
concern, no transaction is active, a truthy collation option is
supplied and the wire version is below 5, `executeCommand` has already
attached the `readConcern` field to the caller-owned command document
before it reports the collation error, even though no command is ever
sent to the transport. -/
theorem executeCommand_mutation_before_collation_error (op : CommandOperation)
    (server : Server) (cmd : Cmd) (hrc : op.readConcern.isSome = true)
    (hsrc : cmd.supportsReadConcern = true)
    (htx : op.inTransactionFlag = false)
    (hcol : op.options.collation.isSome = true)
    (hwv : server.wireVersion < 5) :
    (op.executeCommand server cmd).fst.readConcern = op.readConcern ∧
    (op.executeCommand server cmd).snd.isSent = false := by
  have hb : (op.options.collation.isSome && decide (server.wireVersion < 5)) = true := by
    simp [hcol, hwv]
  refine ⟨?_, ?_⟩
  · rw [executeCommand_fst_readConcern]
    simp [hrc, hsrc, htx]
  · rw [executeCommand_snd_isSent, hb]
    rfl

/-- Witness for C10 at a concrete input: read concern configured,
supporting verb, no session, collation supplied, wire version 4; the
caller document comes back mutated while the call errors. -/
theorem executeCommand_mutation_before_collation_error_witness :
    (({ aspects := [], options := { collation := some ⟨"fr"⟩ }, ns := ⟨"admin", "$cmd"⟩,
        readConcern := some ⟨"majority"⟩ } :
        CommandOperation).executeCommand ⟨"h1", 4⟩
          { supportsReadConcern := true }).fst.readConcern = some ⟨"majority"⟩ ∧
    (({ aspects := [], options := { collation := some ⟨"fr"⟩ }, ns := ⟨"admin", "$cmd"⟩,
        readConcern := some ⟨"majority"⟩ } :
        CommandOperation).executeCommand ⟨"h1", 4⟩
          { supportsReadConcern := true }).snd.isSent = false :=
  executeCommand_mutation_before_collation_error _ _ _ (by decide) (by decide) (by decide)
    (by decide) (by decide)

/-- C6: when the transaction-active predicate of the attached session
is true, neither a `readConcern` field nor a `writeConcern` field is
attached to the command document, whatever the configured concerns,
wire version and aspects. -/
theorem executeCommand_transaction_suppression (op : CommandOperation) (server : Server)
    (cmd : Cmd) (htx : op.inTransactionFlag = true) :
    (op.executeCommand server cmd).fst.readConcern = cmd.readConcern ∧
    (op.executeCommand server cmd).fst.writeConcern = cmd.writeConcern := by
  refine ⟨?_, ?_⟩
  · rw [executeCommand_fst_readConcern]
    simp [htx]
  · rw [executeCommand_fst_writeConcern]
    simp [htx]

/-- Witness for C6 at a concrete input: both concerns configured, wire
version 5, write-operation aspect, active transaction — still neither
field is attached. -/
theorem executeCommand_transaction_suppression_witness :
    (({ aspects := [Aspect.WRITE_OPERATION], options := {}, ns := ⟨"admin", "$cmd"⟩,
        session := some ⟨true⟩, readConcern := some ⟨"majority"⟩,
        writeConcern := some ⟨"majority"⟩ } :
        CommandOperation).executeCommand ⟨"h1", 5⟩
          { supportsReadConcern := true }).fst.readConcern = none ∧
    (({ aspects := [Aspect.WRITE_OPERATION], options := {}, ns := ⟨"admin", "$cmd"⟩,
        session := some ⟨true⟩, readConcern := some ⟨"majority"⟩,
        writeConcern := some ⟨"majority"⟩ } :
        CommandOperation).executeCommand ⟨"h1", 5⟩
          { supportsReadConcern := true }).fst.writeConcern = none :=
  executeCommand_transaction_suppression _ _ _ (by decide)

/-- C4: for an operation with the `EXPLAINABLE` aspect, `canRetryWrite`
is true exactly when no explain directive is active, and false when one
is; for an operation without the aspect it is always true. -/
theorem canRetryWrite_characterization (op : CommandOperation) :
    (op.hasAspect Aspect.EXPLAINABLE = true →
      ((op.canRetryWrite = true ↔ op.explain = none) ∧
       (op.explain.isSome = true → op.canRetryWrite = false))) ∧
    (op.hasAspect Aspect.EXPLAINABLE = false → op.canRetryWrite = true) := by
  refine ⟨fun h => ⟨?_, fun hs => ?_⟩, fun h => ?_⟩
  · simp [CommandOperation.canRetryWrite, h, Option.isNone_iff_eq_none]
  · cases hE : op.explain
    · rw [hE] at hs
      simp at hs
    · simp [CommandOperation.canRetryWrite, h, hE]
  · simp [CommandOperation.canRetryWrite, h]

/-- Witness for C4 at concrete inputs: an explainable operation with an
active directive is not retryable; one without the aspect is. -/
theorem canRetryWrite_characterization_witness :
    (({ aspects := [Aspect.EXPLAINABLE], options := {}, ns := ⟨"admin", "$cmd"⟩,
        explain := some ⟨"queryPlanner"⟩ } : CommandOperation).canRetryWrite = false) ∧
    (({ aspects := [Aspect.WRITE_OPERATION], options := {}, ns := ⟨"admin", "$cmd"⟩ } :
        CommandOperation).canRetryWrite = true) :=
  ⟨((canRetryWrite_characterization _).1 (by decide)).2 (by decide),
   (canRetryWrite_characterization _).2 (by decide)⟩

/-- C7: starting from a command without a `writeConcern` field, the
field is attached exactly when wire version ≥ 5, a write concern is
set, the operation has the `WRITE_OPERATION` aspect and no transaction
is active; and when the wire version is below 5 with a write concern
set but no collation supplied, the write concern is omitted silently
while the command is still sent. -/
theorem executeCommand_writeConcern_gate (op : CommandOperation) (server : Server)
    (cmd : Cmd) (hwc0 : cmd.writeConcern = none) :
    ((op.executeCommand server cmd).fst.writeConcern =
      if decide (server.wireVersion ≥ 5) && op.writeConcern.isSome &&
          op.hasAspect Aspect.WRITE_OPERATION && !op.inTransactionFlag then
        op.writeConcern
      else none) ∧
    (server.wireVersion < 5 → op.options.collation = none →
      (op.executeCommand server cmd).snd.isSent = true) := by
  refine ⟨?_, fun _ hcol => ?_⟩
  · rw [executeCommand_fst_writeConcern, hwc0]
  · rw [executeCommand_snd_isSent]
    simp [hcol]

/-- Witness for C7 at concrete inputs: wire version 5 with the
write-operation aspect attaches the concern; wire version 4 with a
concern set and no collation sends the command without it. -/
theorem executeCommand_writeConcern_gate_witness :
    (({ aspects := [Aspect.WRITE_OPERATION], options := {}, ns := ⟨"db", "$cmd"⟩,
        writeConcern := some ⟨"2"⟩ } :
        CommandOperation).executeCommand ⟨"h1", 5⟩ {}).fst.writeConcern = some ⟨"2"⟩ ∧
    (({ aspects := [Aspect.WRITE_OPERATION], options := {}, ns := ⟨"db", "$cmd"⟩,
        writeConcern := some ⟨"2"⟩ } :
        CommandOperation).executeCommand ⟨"h1", 4⟩ {}).fst.writeConcern = none ∧
    (({ aspects := [Aspect.WRITE_OPERATION], options := {}, ns := ⟨"db", "$cmd"⟩,
        writeConcern := some ⟨"2"⟩ } :
        CommandOperation).executeCommand ⟨"h1", 4⟩ {}).snd.isSent = true := by
  refine ⟨?_, ?_, ?_⟩
  · have h := (executeCommand_writeConcern_gate
      { aspects := [Aspect.WRITE_OPERATION], options := {}, ns := ⟨"db", "$cmd"⟩,
        writeConcern := some ⟨"2"⟩ } ⟨"h1", 5⟩ {} (by decide)).1
    rw [h]
    decide
  · have h := (executeCommand_writeConcern_gate
      { aspects := [Aspect.WRITE_OPERATION], options := {}, ns := ⟨"db", "$cmd"⟩,
        writeConcern := some ⟨"2"⟩ } ⟨"h1", 4⟩ {} (by decide)).1
    rw [h]
    decide
  · exact (executeCommand_writeConcern_gate
      { aspects := [Aspect.WRITE_OPERATION], options := {}, ns := ⟨"db", "$cmd"⟩,
        writeConcern := some ⟨"2"⟩ } ⟨"h1", 4⟩ {} (by decide)).2 (by decide) (by decide)

/-- C2: for an explainable operation with an active explain directive
and past the collation gate, a wire version below 6 with a truthy
`aggregate` field yields the boolean `explain: true` flag on the plain
command, and otherwise the dispatched command is the explain wrapping
carrying the resolved verbosity. -/
theorem executeCommand_explain_wire_gate (op : CommandOperation) (server : Server)
    (cmd : Cmd) (hA : op.hasAspect Aspect.EXPLAINABLE = true) (ex : Explain)
    (hE : op.explain = some ex)
    (hgate : (op.options.collation.isSome && decide (server.wireVersion < 5)) = false) :
    ((decide (server.wireVersion < 6) && aggregateTruthy cmd.aggregate) = true →
      (op.executeCommand server cmd).fst.explain = some true ∧
      (op.executeCommand server cmd).snd.sentCmd =
        some (.plain (op.executeCommand server cmd).fst)) ∧
    ((decide (server.wireVersion < 6) && aggregateTruthy cmd.aggregate) = false →
      (op.executeCommand server cmd).snd.sentCmd =
        some (decorateWithExplain (op.executeCommand server cmd).fst ex) ∧
      (op.executeCommand server cmd).fst.explain = cmd.explain) := by
  have hs := executeCommand_sentCmd op server cmd hgate
  have hf := executeCommand_fst_explain op server cmd
  refine ⟨fun hagg => ⟨?_, ?_⟩, fun hagg => ⟨?_, ?_⟩⟩
  · rw [hf]
    cases h6 : decide (server.wireVersion < 6) <;>
      cases hag : aggregateTruthy cmd.aggregate <;> simp_all
    intro hcol hlt
    rcases hc : op.options.collation with _ | c
    · exact absurd hc hcol
    · have h5 := hgate (by simp [hc])
      omega
  · rw [hs]
    simp [hA, hE, hagg]
  · rw [hs]
    simp [hA, hE, hagg]
  · rw [hf, hgate]
    cases h6 : decide (server.wireVersion < 6) <;>
      cases hag : aggregateTruthy cmd.aggregate <;> simp_all

/-- Witness for C2 at concrete inputs: the same explainable aggregate
operation gets the boolean flag at wire version 5 and the wrapped form
at wire version 6. -/
theorem executeCommand_explain_wire_gate_witness :
    (({ aspects := [Aspect.EXPLAINABLE], options := {}, ns := ⟨"db", "$cmd"⟩,
        explain := some ⟨"queryPlanner"⟩ } :
        CommandOperation).executeCommand ⟨"h1", 5⟩ { aggregate := some "coll" }).fst.explain =
      some true ∧
    (({ aspects := [Aspect.EXPLAINABLE], options := {}, ns := ⟨"db", "$cmd"⟩,
        explain := some ⟨"queryPlanner"⟩ } :
        CommandOperation).executeCommand ⟨"h1", 6⟩ { aggregate := some "coll" }).snd.sentCmd =
      some (decorateWithExplain
        (({ aspects := [Aspect.EXPLAINABLE], options := {}, ns := ⟨"db", "$cmd"⟩,
            explain := some ⟨"queryPlanner"⟩ } :
            CommandOperation).executeCommand ⟨"h1", 6⟩ { aggregate := some "coll" }).fst
        ⟨"queryPlanner"⟩) :=
  ⟨((executeCommand_explain_wire_gate _ ⟨"h1", 5⟩ _ (by decide) ⟨"queryPlanner"⟩ (by decide)
      (by decide)).1 (by decide)).1,
   ((executeCommand_explain_wire_gate _ ⟨"h1", 6⟩ _ (by decide) ⟨"queryPlanner"⟩ (by decide)
      (by decide)).2 (by decide)).1⟩

lemma executeCommand_sentCmd_of_explain_none (op : CommandOperation) (server : Server)
    (cmd : Cmd) (h : op.explain = none) :
    ∀ dc, (op.executeCommand server cmd).snd.sentCmd = some dc →
      dc = .plain (op.executeCommand server cmd).fst := by
  intro dc hdc
  by_cases hg : (op.options.collation.isSome && decide (server.wireVersion < 5)) = true
  · rw [executeCommand_snd_error op server cmd hg] at hdc
    simp [ExecResult.sentCmd] at hdc
  · have hg' : (op.options.collation.isSome && decide (server.wireVersion < 5)) = false := by
      simpa using hg
    rw [executeCommand_sentCmd op server cmd hg'] at hdc
    simp [h] at hdc
    exact hdc.symm

/-- C3: constructing an operation whose kind lacks the `EXPLAINABLE`
aspect with an explain option defined always throws the configuration
error, before any command is sent; constructing an explainable
operation with no explain option succeeds, resolves no directive, and
yields no explain decoration at execution time (the explain field is
untouched and any dispatched document is the plain one). -/
theorem construct_explain_gate :
    (∀ (aspects : List Aspect) (parent : Option OperationParent)
       (options : Option CommandOperationOptions),
      aspects.contains Aspect.EXPLAINABLE = false →
      (options.bind (·.explain)).isSome = true →
      CommandOperation.construct aspects parent options =
        .error ⟨"explain is not supported on this command"⟩) ∧
    (∀ (aspects : List Aspect) (parent : Option OperationParent)
       (options : Option CommandOperationOptions),
      aspects.contains Aspect.EXPLAINABLE = true →
      options.bind (·.explain) = none →
      ∃ op, CommandOperation.construct aspects parent options = .ok op ∧
        op.explain = none ∧
        ∀ (server : Server) (cmd : Cmd),
          (op.executeCommand server cmd).fst.explain = cmd.explain ∧
          ∀ dc, (op.executeCommand server cmd).snd.sentCmd = some dc →
            dc = .plain (op.executeCommand server cmd).fst) := by
  constructor
  · intro aspects parent options h1 h2
    unfold CommandOperation.construct
    rw [h1]
    simp [h2]
  · intro aspects parent options hA hN
    cases hc : CommandOperation.construct aspects parent options with
    | error e =>
      exfalso
      unfold CommandOperation.construct at hc
      rw [hA] at hc
      simp at hc
    | ok op =>
      have hexp : op.explain = none := by
        unfold CommandOperation.construct at hc
        rw [hA] at hc
        simp only [if_pos] at hc
        rw [Except.ok.injEq] at hc
        rw [← hc]
        simp [Explain.fromOptions, hN]
      refine ⟨op, rfl, hexp, fun server cmd => ⟨?_, ?_⟩⟩
      · rw [executeCommand_fst_explain]
        simp [hexp]
      · exact executeCommand_sentCmd_of_explain_none op server cmd hexp

/-- Witness for C3 at concrete inputs: a non-explainable kind with an
explain option errors at construction; an explainable kind without one
constructs and dispatches the plain, undecorated command. -/
theorem construct_explain_gate_witness :
    CommandOperation.construct [Aspect.WRITE_OPERATION] none
        (some { explain := some (.boolean true) }) =
      .error ⟨"explain is not supported on this command"⟩ ∧
    ∃ op, CommandOperation.construct [Aspect.EXPLAINABLE] none (some {}) = .ok op ∧
      op.explain = none ∧
      ∀ (server : Server) (cmd : Cmd),
        (op.executeCommand server cmd).fst.explain = cmd.explain ∧
        ∀ dc, (op.executeCommand server cmd).snd.sentCmd = some dc →
          dc = .plain (op.executeCommand server cmd).fst :=
  ⟨construct_explain_gate.1 [Aspect.WRITE_OPERATION] none
      (some { explain := some (.boolean true) }) (by decide) (by decide),
   construct_explain_gate.2 [Aspect.EXPLAINABLE] none (some {}) (by decide) (by decide)⟩

/-- The namespace computed by the constructor (the `dbNameOverride`/
`ns` block), extracted for reasoning. -/
def resolvedNs (parent : Option OperationParent)
    (options : Option CommandOperationOptions) : MongoDBNamespace :=
  match (jsTruthyStr (options.bind (·.dbName))).orElse
      (fun _ => jsTruthyStr (options.bind (·.authdb))) with
  | some dbn => MongoDBNamespace.mk dbn "$cmd"
  | none =>
    match parent with
    | some p => p.ns.withCollection "$cmd"
    | none => MongoDBNamespace.mk "admin" "$cmd"

lemma construct_ns (aspects : List Aspect) (parent : Option OperationParent)
    (options : Option CommandOperationOptions) (op : CommandOperation)
    (hok : CommandOperation.construct aspects parent options = .ok op) :
    op.ns = resolvedNs parent options := by
  unfold CommandOperation.construct at hok
  cases hA : aspects.contains Aspect.EXPLAINABLE <;> rw [hA] at hok
  · simp only [Bool.false_eq_true, if_false] at hok
    cases hE : (options.bind (·.explain)).isSome <;> rw [hE] at hok
    · simp only [Bool.false_eq_true, if_false, Except.ok.injEq] at hok
      subst hok
      rfl
    · simp at hok
  · simp only [if_pos, Except.ok.injEq] at hok
    subst hok
    rfl

lemma resolvedNs_override (parent : Option OperationParent)
    (options : Option CommandOperationOptions) (d : String)
    (hd : jsTruthyStr (options.bind (·.dbName)) = some d) :
    resolvedNs parent options = ⟨d, "$cmd"⟩ := by
  unfold resolvedNs
  rw [hd]
  simp [Option.orElse]

lemma resolvedNs_authdb (parent : Option OperationParent)
    (options : Option CommandOperationOptions) (a : String)
    (hdn : jsTruthyStr (options.bind (·.dbName)) = none)
    (ha : jsTruthyStr (options.bind (·.authdb)) = some a) :
    resolvedNs parent options = ⟨a, "$cmd"⟩ := by
  unfold resolvedNs
  rw [hdn, ha]
  simp [Option.orElse]

lemma resolvedNs_parent (p : OperationParent)
    (options : Option CommandOperationOptions)
    (hdn : jsTruthyStr (options.bind (·.dbName)) = none)
    (han : jsTruthyStr (options.bind (·.authdb)) = none) :
    resolvedNs (some p) options = ⟨p.ns.db, "$cmd"⟩ := by
  unfold resolvedNs
  rw [hdn, han]
  simp [Option.orElse, MongoDBNamespace.withCollection]

lemma resolvedNs_admin (options : Option CommandOperationOptions)
    (hdn : jsTruthyStr (options.bind (·.dbName)) = none)
    (han : jsTruthyStr (options.bind (·.authdb)) = none) :
    resolvedNs none options = ⟨"admin", "$cmd"⟩ := by
  unfold resolvedNs
  rw [hdn, han]
  simp [Option.orElse]

lemma resolvedNs_collection (parent : Option OperationParent)
    (options : Option CommandOperationOptions) :
    (resolvedNs parent options).collection = "$cmd" := by
  unfold resolvedNs
  rcases hdn : jsTruthyStr (options.bind (·.dbName)) with _ | d
  · rcases han : jsTruthyStr (options.bind (·.authdb)) with _ | a
    · rcases parent with _ | p
      · simp [Option.orElse]
      · simp [Option.orElse, MongoDBNamespace.withCollection]
    · simp [Option.orElse]
  · simp [Option.orElse]

/-- C5: namespace resolution precedence at construction — a truthy
database-name override wins regardless of any parent (with `dbName`
consulted before `authdb`), else a parent's database is reused, else
the default administrative database; the collection component is
always the command pseudo-collection, and every dispatch targets the
construction-time namespace. -/
theorem construct_namespace_precedence (aspects : List Aspect)
    (parent : Option OperationParent) (options : Option CommandOperationOptions)
    (op : CommandOperation)
    (hok : CommandOperation.construct aspects parent options = .ok op) :
    (∀ d, jsTruthyStr (options.bind (·.dbName)) = some d → op.ns = ⟨d, "$cmd"⟩) ∧
    (jsTruthyStr (options.bind (·.dbName)) = none →
      (∀ a, jsTruthyStr (options.bind (·.authdb)) = some a → op.ns = ⟨a, "$cmd"⟩) ∧
      (jsTruthyStr (options.bind (·.authdb)) = none →
        (∀ p, parent = some p → op.ns = ⟨p.ns.db, "$cmd"⟩) ∧
        (parent = none → op.ns = ⟨"admin", "$cmd"⟩))) ∧
    op.ns.collection = "$cmd" ∧
    (∀ (server : Server) (cmd : Cmd) (n : String),
      (op.executeCommand server cmd).snd.sentNs = some n → n = op.ns.toStr) := by
  have hns := construct_ns aspects parent options op hok
  refine ⟨?_, ?_, ?_, ?_⟩
  · intro d hd
    rw [hns, resolvedNs_override parent options d hd]
  · intro hdn
    refine ⟨?_, ?_⟩
    · intro a ha
      rw [hns, resolvedNs_authdb parent options a hdn ha]
    · intro han
      refine ⟨?_, ?_⟩
      · intro p hp
        rw [hns, hp, resolvedNs_parent p options hdn han]
      · intro hp
        rw [hns, hp, resolvedNs_admin options hdn han]
  · rw [hns, resolvedNs_collection]
  · intro server cmd n h
    by_cases hg : (op.options.collation.isSome && decide (server.wireVersion < 5)) = true
    · rw [executeCommand_sentNs] at h
      simp [hg] at h
    · have hg' : (op.options.collation.isSome && decide (server.wireVersion < 5)) = false := by
        simpa using hg
      rw [executeCommand_sentNs] at h
      simp [hg'] at h
      exact h.symm

/-- Witness for C5 at concrete inputs: override beats parent, parent
beats the default, and the default is the admin database. -/
theorem construct_namespace_precedence_witness :
    (∃ op, CommandOperation.construct [] (some ⟨⟨"pdb", "stuff"⟩, none⟩)
        (some { dbName := some "dbX" }) = .ok op ∧ op.ns = ⟨"dbX", "$cmd"⟩) ∧
    (∃ op, CommandOperation.construct [] (some ⟨⟨"pdb", "stuff"⟩, none⟩) (some {}) = .ok op ∧
      op.ns = ⟨"pdb", "$cmd"⟩) ∧
    (∃ op, CommandOperation.construct [] none none = .ok op ∧ op.ns = ⟨"admin", "$cmd"⟩) :=
  ⟨⟨_, rfl, (construct_namespace_precedence [] (some ⟨⟨"pdb", "stuff"⟩, none⟩)
      (some { dbName := some "dbX" }) _ rfl).1 "dbX" (by decide)⟩,
   ⟨_, rfl, (((construct_namespace_precedence [] (some ⟨⟨"pdb", "stuff"⟩, none⟩)
      (some {}) _ rfl).2.1 (by decide)).2 (by decide)).1 ⟨⟨"pdb", "stuff"⟩, none⟩ rfl⟩,
   ⟨_, rfl, (((construct_namespace_precedence [] none none _ rfl).2.1
      (by decide)).2 (by decide)).2 rfl⟩⟩

lemma Cmd.eq_of_fields (x y : Cmd)
    (h1 : x.supportsReadConcern = y.supportsReadConcern)
    (h2 : x.aggregate = y.aggregate)
    (h3 : x.readConcern = y.readConcern)
    (h4 : x.writeConcern = y.writeConcern)
    (h5 : x.collation = y.collation)
    (h6 : x.maxTimeMS = y.maxTimeMS)
    (h7 : x.comment = y.comment)
    (h8 : x.explain = y.explain) : x = y := by
  cases x
  cases y
  simp_all

/-- C8: the decoration pipeline is deterministic over its inputs — two
operations agreeing on the concerns, the explain directive, the
consulted aspects, the transaction state and the collation, comment and
max-time options, run against servers of the same wire version on the
same command document, produce the same final caller document and the
same dispatched document (independently, in particular, of server name,
namespace, logger and the remaining options). -/
theorem executeCommand_deterministic (opa opb : CommandOperation) (sa sb : Server)
    (cmd : Cmd)
    (hrc : opa.readConcern = opb.readConcern)
    (hwc : opa.writeConcern = opb.writeConcern)
    (hex : opa.explain = opb.explain)
    (hexpA : opa.hasAspect Aspect.EXPLAINABLE = opb.hasAspect Aspect.EXPLAINABLE)
    (hwrA : opa.hasAspect Aspect.WRITE_OPERATION = opb.hasAspect Aspect.WRITE_OPERATION)
    (htx : opa.inTransactionFlag = opb.inTransactionFlag)
    (hcol : opa.options.collation = opb.options.collation)
    (hcom : opa.options.comment = opb.options.comment)
    (hmt : opa.options.maxTimeMS = opb.options.maxTimeMS)
    (hwv : sa.wireVersion = sb.wireVersion) :
    (opa.executeCommand sa cmd).fst = (opb.executeCommand sb cmd).fst ∧
    (opa.executeCommand sa cmd).snd.sentCmd = (opb.executeCommand sb cmd).snd.sentCmd := by
  have hfst : (opa.executeCommand sa cmd).fst = (opb.executeCommand sb cmd).fst := by
    apply Cmd.eq_of_fields
    · rw [executeCommand_fst_supports, executeCommand_fst_supports]
    · rw [executeCommand_fst_aggregate, executeCommand_fst_aggregate]
    · rw [executeCommand_fst_readConcern, executeCommand_fst_readConcern, hrc, htx]
    · rw [executeCommand_fst_writeConcern, executeCommand_fst_writeConcern, hwc, hwrA,
        htx, hwv]
    · rw [executeCommand_fst_collation, executeCommand_fst_collation, hcol, hwv]
    · rw [executeCommand_fst_maxTimeMS, executeCommand_fst_maxTimeMS, hcol, hmt, hwv]
    · rw [executeCommand_fst_comment, executeCommand_fst_comment, hcol, hcom, hwv]
    · rw [executeCommand_fst_explain, executeCommand_fst_explain, hcol, hexpA, hex, hwv]
  refine ⟨hfst, ?_⟩
  by_cases hg : (opa.options.collation.isSome && decide (sa.wireVersion < 5)) = true
  · have hgb : (opb.options.collation.isSome && decide (sb.wireVersion < 5)) = true := by
      rw [← hcol, ← hwv]
      exact hg
    rw [executeCommand_snd_error _ _ _ hg, executeCommand_snd_error _ _ _ hgb]
    rfl
  · have hga : (opa.options.collation.isSome && decide (sa.wireVersion < 5)) = false := by
      simpa using hg
    have hgb : (opb.options.collation.isSome && decide (sb.wireVersion < 5)) = false := by
      rw [← hcol, ← hwv]
      exact hga
    rw [executeCommand_sentCmd _ _ _ hga, executeCommand_sentCmd _ _ _ hgb]
    rw [hfst, hexpA, hex, hwv]

def detOpA : CommandOperation :=
  { aspects := [Aspect.WRITE_OPERATION, Aspect.RETRYABLE],
    options := { collation := some ⟨"en"⟩, maxTimeMS := some 50,
                 comment := some (.str "hello") },
    ns := ⟨"db1", "$cmd"⟩, readConcern := some ⟨"local"⟩, writeConcern := some ⟨"1"⟩,
    fullResponse := true, logger := some ⟨true⟩ }

def detOpB : CommandOperation :=
  { aspects := [Aspect.RETRYABLE, Aspect.WRITE_OPERATION],
    options := { collation := some ⟨"en"⟩, maxTimeMS := some 50,
                 comment := some (.str "hello"), fullResult := some true,
                 dbName := some "other" },
    ns := ⟨"db2", "$cmd"⟩, readConcern := some ⟨"local"⟩, writeConcern := some ⟨"1"⟩,
    fullResponse := false, logger := none }

/-- Witness for C8 at concrete inputs: two operations that differ only
in fields the decoration does not consult (namespace, logger,
`fullResponse`, `fullResult`, `dbName`, aspect order), against servers
differing only in name, decorate identically. -/
theorem executeCommand_deterministic_witness :
    (detOpA.executeCommand ⟨"h1", 7⟩ {}).fst = (detOpB.executeCommand ⟨"h2", 7⟩ {}).fst ∧
    (detOpA.executeCommand ⟨"h1", 7⟩ {}).snd.sentCmd =
      (detOpB.executeCommand ⟨"h2", 7⟩ {}).snd.sentCmd :=
  executeCommand_deterministic detOpA detOpB ⟨"h1", 7⟩ ⟨"h2", 7⟩ {} (by decide) (by decide)
    (by decide) (by decide) (by decide) (by decide) (by decide) (by decide) (by decide)
    (by decide)

/-- C9: the execution-options bag forwarded to the transport spreads
the caller's original options after the derived flag, so a
caller-supplied `fullResult` value overrides the flag derived from
`fullResponse`; only when it is absent does the forwarded flag equal
the recorded boolean `fullResponse`, whose construction-time default is
false. -/
theorem execOptions_fullResult_override :
    (∀ (op : CommandOperation) (server : Server) (cmd : Cmd) (o : ExecOptions),
      (op.executeCommand server cmd).snd.sentOpts = some o →
      ((∀ v, op.options.fullResult = some v → o.fullResult = v) ∧
       (op.options.fullResult = none → o.fullResult = op.fullResponse))) ∧
    (∀ (aspects : List Aspect) (parent : Option OperationParent)
       (options : CommandOperationOptions) (op : CommandOperation),
      CommandOperation.construct aspects parent (some options) = .ok op →
      options.fullResponse = none → op.fullResponse = false) := by
  constructor
  · intro op server cmd o h
    rw [executeCommand_sentOpts] at h
    by_cases hg : (op.options.collation.isSome && decide (server.wireVersion < 5)) = true
    · simp [hg] at h
    · have hg' : (op.options.collation.isSome && decide (server.wireVersion < 5)) = false := by
        simpa using hg
      rw [hg'] at h
      simp only [Bool.false_eq_true, if_false, Option.some.injEq] at h
      subst h
      unfold CommandOperation.buildExecOptions
      constructor
      · intro v hv
        rw [hv]
      · intro hv
        rw [hv]
  · intro aspects parent options op hok hfr
    unfold CommandOperation.construct at hok
    cases hA : aspects.contains Aspect.EXPLAINABLE <;> rw [hA] at hok
    · simp only [Bool.false_eq_true, if_false] at hok
      cases hE : ((some options).bind (·.explain)).isSome <;> rw [hE] at hok
      · simp only [Bool.false_eq_true, if_false, Except.ok.injEq] at hok
        subst hok
        simp [hfr]
      · simp at hok
    · simp only [if_pos, Except.ok.injEq] at hok
      subst hok
      simp [hfr]

def opFRw : CommandOperation :=
  { aspects := [], options := { fullResult := some false }, ns := ⟨"db", "$cmd"⟩,
    fullResponse := true }

/-- Witness for C9 at concrete inputs: a caller-supplied
`fullResult: false` wins over `fullResponse: true`, and construction
without a `fullResponse` option records the default false. -/
theorem execOptions_fullResult_override_witness :
    (opFRw.executeCommand ⟨"h", 7⟩ {}).snd.sentOpts = some opFRw.buildExecOptions ∧
    opFRw.buildExecOptions.fullResult = false ∧
    (∃ op, CommandOperation.construct [] none (some {}) = .ok op ∧ op.fullResponse = false) :=
  ⟨by decide,
   (execOptions_fullResult_override.1 opFRw ⟨"h", 7⟩ {} opFRw.buildExecOptions (by decide)).1
     false (by decide),
   ⟨_, rfl, execOptions_fullResult_override.2 [] none {} _ rfl (by decide)⟩⟩
